import Mathlib

/-!
Shallow embedding of the path-authentication core of sa-token-rust
(sa-token-core/src/router.rs) and of the credential-extraction code of the
axum and actix-web adapters (sa-token-plugin-axum/src/layer.rs,
sa-token-plugin-actix-web/src/middleware.rs), with theorems checking the
specification's claims against it.

Rust string values are embedded as `List Char`.  Every slice taken by the
embedded code either strips a known ASCII affix (`"/**"`, `"/*"`, `"*"`,
`"Bearer "`) or splits at an ASCII separator character, so byte positions
and character positions coincide and the embedding is faithful, including
on non-ASCII payload text.
-/

/-- Rust `&str` / `String` values, embedded as lists of characters. -/
abbrev Str := List Char

namespace SaToken

/-- Embedding of `match_path` (router.rs lines 29-50): Ant-style wildcard
matching of a path against a pattern, rules tried in source order with
early return.  `pattern.take (pattern.length - 3)` embeds the byte slice
`&pattern[..pattern.len() - 3]`, and similarly for the other slices. -/
def match_path (path pat : Str) : Bool :=
  if pat = "/**".toList then
    true
  else if "/**".toList.isSuffixOf pat then
    let pre := pat.take (pat.length - 3)
    pre.isPrefixOf path
  else if "*".toList.isPrefixOf pat then
    let suf := pat.drop 1
    suf.isSuffixOf path
  else if "/*".toList.isSuffixOf pat then
    let pre := pat.take (pat.length - 2)
    if pre.isPrefixOf path then
      let suf := path.drop pre.length
      !suf.contains '/' || suf = "/".toList
    else
      false
  else
    path = pat

/-- Embedding of `match_any` (router.rs lines 54-56). -/
def match_any (path : Str) (patterns : List Str) : Bool :=
  patterns.any (fun p => match_path path p)

/-- Embedding of `need_auth` (router.rs lines 63-65).  The source names the
parameters `include`/`exclude`; `include` is a Lean keyword, so they are
`inc`/`exc` here, as in the locals of `PathAuthConfig::check`. -/
def need_auth (path : Str) (inc exc : List Str) : Bool :=
  match_any path inc && !match_any path exc

/-- Embedding of `PathAuthConfig` (router.rs lines 73-83): include
patterns, exclude patterns, optional login-id validator function. -/
structure PathAuthConfig where
  inc : List Str
  exc : List Str
  validator : Option (Str → Bool)

/-- Embedding of `PathAuthConfig::check` (router.rs lines 122-126); the
`Vec<String>` to `Vec<&str>` conversion there is the identity here. -/
def PathAuthConfig.check (c : PathAuthConfig) (path : Str) : Bool :=
  need_auth path c.inc c.exc

/-- Embedding of `PathAuthConfig::validate_login_id` (router.rs lines
130-132): `self.validator.as_ref().map_or(true, |v| v(login_id))`. -/
def PathAuthConfig.validate_login_id (c : PathAuthConfig) (login_id : Str) : Bool :=
  match c.validator with
  | none => true
  | some v => v login_id

/-- Modelled from the spec: `TokenValue` lives in sa-token-core's token
module, which is not among the provided sources; per the glossary a token
is an opaque string credential, and `TokenValue::new` (called at router.rs
line 194) wraps the string. -/
structure TokenValue where
  value : Str
  deriving DecidableEq

/-- Embedding of `TokenValue::new`. -/
def TokenValue.new (s : Str) : TokenValue := ⟨s⟩

/-- Modelled from the spec: `TokenInfo` (ResolvedIdentity, spec section 3)
lives in sa-token-core's token module, not among the provided sources; it
is "login id plus backend-resolved metadata, opaque to this core".  Only
`login_id` is read by the embedded code; `meta` stands for the opaque
remainder. -/
structure TokenInfo where
  login_id : Str
  meta : List Str
  deriving DecidableEq

/-- Modelled from the spec: `SaTokenError`, the error type of identity
resolution, is not among the provided sources; it is opaque to the router
code, which only discards it via `.ok()`. -/
structure SaTokenError where
  message : Str
  deriving DecidableEq

/-- Modelled from the spec: `SaTokenManager` is the TokenValidator
collaborator of spec section 6 — `is_valid(token) -> bool` and identity
resolution `get_token_info(token) -> Result<TokenInfo, SaTokenError>` —
with exactly the two methods router.rs calls on it (lines 197, 199). -/
structure SaTokenManager where
  is_valid : TokenValue → Bool
  get_token_info : TokenValue → Except SaTokenError TokenInfo

/-- Embedding of `AuthResult` (router.rs lines 145-158). -/
structure AuthResult where
  need_auth : Bool
  token : Option TokenValue
  token_info : Option TokenInfo
  is_valid : Bool
  deriving DecidableEq

/-- Embedding of `AuthResult::should_reject` (router.rs lines 163-165). -/
def AuthResult.should_reject (r : AuthResult) : Bool :=
  r.need_auth && (!r.is_valid || r.token.isNone)

/-- Embedding of `AuthResult::login_id` (router.rs lines 169-171). -/
def AuthResult.login_id (r : AuthResult) : Option Str :=
  r.token_info.map (fun t => t.login_id)

/-- Embedding of `process_auth` (router.rs lines 186-220).  The manager's
async calls are the pure fields of `SaTokenManager` here; `.ok()` on the
resolution result is `Except.toOption`.  The Rust code shadows `is_valid`;
the rebinding is named `iv` here. -/
def process_auth (path : Str) (token_str : Option Str) (config : PathAuthConfig)
    (manager : SaTokenManager) : AuthResult :=
  let na := config.check path
  let token := token_str.map TokenValue.new
  let vi : Bool × Option TokenInfo :=
    match token with
    | some t =>
      let valid := manager.is_valid t
      let info := if valid then (manager.get_token_info t).toOption else none
      (valid, info)
    | none => (false, none)
  let iv := vi.1 && (if na then
      match vi.2 with
      | some info => config.validate_login_id info.login_id
      | none => false
    else true)
  { need_auth := na, token := token, token_info := vi.2, is_valid := iv }

/-- Modelled from the spec: `SaTokenContext` (AmbientContext, spec
section 3) lives in sa-token-core outside the provided sources; it is
modelled as the record of the three optional fields that router.rs's
`create_context` populates, with `new` the empty context ("empty at
entry").  The `Arc` around the token info is the identity here. -/
structure SaTokenContext where
  token : Option TokenValue
  token_info : Option TokenInfo
  login_id : Option Str
  deriving DecidableEq

/-- Modelled from the spec: `SaTokenContext::new` yields the empty
context. -/
def SaTokenContext.new : SaTokenContext := ⟨none, none, none⟩

/-- Embedding of `create_context` (router.rs lines 224-232): start from
the empty context and populate all three fields exactly when both the
token and the token info are present. -/
def create_context (result : AuthResult) : SaTokenContext :=
  match result.token, result.token_info with
  | some token, some info =>
    { token := some token, token_info := some info, login_id := some info.login_id }
  | _, _ => SaTokenContext.new

/-- Models Rust's `str::trim`: drop whitespace from both ends.  Rust trims
Unicode `White_Space`; `Char.isWhitespace` covers the ASCII cases, which
are the only ones the properties below exercise. -/
def rustTrim (s : Str) : Str :=
  ((s.dropWhile Char.isWhitespace).reverse.dropWhile Char.isWhitespace).reverse

/-- Splits a string at the first occurrence of `c`: the embedding of
Rust's `splitn(2, c)` in the case where it yields two parts; `none` when
`c` is absent (one part). -/
def splitOnce (c : Char) (s : Str) : Option (Str × Str) :=
  match s.dropWhile (· != c) with
  | [] => none
  | _ :: v => some (s.takeWhile (· != c), v)

namespace Axum

/-- Abstract axum request: `get_header` and `get_cookie` are the
`AxumRequestAdapter` methods (the adapter module is not among the provided
sources), `query` is `request.uri().query()`. -/
structure Request where
  get_header : Str → Option Str
  get_cookie : Str → Option Str
  query : Option Str

/-- Embedding of the axum adapter's `extract_bearer_token` (layer.rs lines
177-187): strip a single leading `"Bearer "` prefix and trim the rest;
values without the prefix are trimmed as well.  `BEARER_PREFIX.len()` is
7. -/
def extract_bearer_token (header_value : Str) : Str :=
  if "Bearer ".toList.isPrefixOf header_value then
    rustTrim (header_value.drop 7)
  else
    rustTrim header_value

/-- Loop of `parse_query_param` over the `&`-separated pairs.  A pair
without `=` gives `splitn(2, '=')` one part and is skipped; on the first
pair whose key equals the parameter name, `decode` of the raw value is
returned — even when decoding fails, the loop stops (the Rust code
`return`s the decode result from inside the loop). -/
def parse_query_loop (param_name : Str) (decode : Str → Option Str) :
    List Str → Option Str
  | [] => none
  | pair :: rest =>
    match splitOnce '=' pair with
    | some (k, v) =>
      if k = param_name then decode v else parse_query_loop param_name decode rest
    | none => parse_query_loop param_name decode rest

/-- Embedding of the axum adapter's `parse_query_param` (layer.rs lines
189-199), with the external `urlencoding::decode(..).ok()` abstracted as
the `decode` argument. -/
def parse_query_param (query param_name : Str) (decode : Str → Option Str) :
    Option Str :=
  parse_query_loop param_name decode (query.splitOn '&')

/-- Embedding of the axum adapter's `extract_token_from_request`
(layer.rs lines 140-170): named header, then the `Authorization` header
unless it is the named header, then cookie, then query parameter; the
first hit is returned. -/
def extract_token_from_request (req : Request) (token_name : Str)
    (decode : Str → Option Str) : Option Str :=
  match req.get_header token_name with
  | some token => some (extract_bearer_token token)
  | none =>
    match (if token_name = "Authorization".toList then none
           else req.get_header "Authorization".toList) with
    | some token => some (extract_bearer_token token)
    | none =>
      match req.get_cookie token_name with
      | some token => some token
      | none =>
        match req.query with
        | some q => parse_query_param q token_name decode
        | none => none

end Axum

namespace Actix

/-- Abstract actix-web request: `get_header` and `get_cookie` are the
`ActixRequestAdapter` methods (the adapter module is not among the
provided sources), `query_string` is `req.query_string()` (always a
string, possibly empty). -/
structure Request where
  get_header : Str → Option Str
  get_cookie : Str → Option Str
  query_string : Str

/-- Embedding of the actix-web adapter's `extract_bearer_token`
(middleware.rs lines 273-279): strip a single leading `"Bearer "` prefix;
no trimming in either branch. -/
def extract_bearer_token (token : Str) : Str :=
  if "Bearer ".toList.isPrefixOf token then token.drop 7 else token

/-- Embedding of the `find_map` over `&`-separated pairs in the actix-web
adapter's query step (middleware.rs lines 256-264).  The key and value are
the first two items of `pair.split('=')`, so the value stops at a second
`=`; a pair without `=` has no second item and is skipped; when the key
matches but decoding fails, `find_map` sees `None` and the search
continues with the remaining pairs. -/
def find_query_param (token_name : Str) (decode : Str → Option Str) :
    List Str → Option Str
  | [] => none
  | pair :: rest =>
    match splitOnce '=' pair with
    | some (k, vrest) =>
      let v := vrest.takeWhile (· != '=')
      if k = token_name then
        match decode v with
        | some s => some s
        | none => find_query_param token_name decode rest
      else find_query_param token_name decode rest
    | none => find_query_param token_name decode rest

/-- Embedding of the actix-web adapter's `extract_token_from_request`
(middleware.rs lines 229-271): same four-tier order as the axum
adapter. -/
def extract_token_from_request (req : Request) (token_name : Str)
    (decode : Str → Option Str) : Option Str :=
  match req.get_header token_name with
  | some token => some (extract_bearer_token token)
  | none =>
    match (if token_name = "Authorization".toList then none
           else req.get_header "Authorization".toList) with
    | some token => some (extract_bearer_token token)
    | none =>
      match req.get_cookie token_name with
      | some token => some token
      | none => find_query_param token_name decode (req.query_string.splitOn '&')

end Actix

/-- Condition under which the two adapters' query loops treat a pair
identically: the part after the pair's first `=` holds no further `=` and
decodes successfully.  (The embedded `urlencoding::decode(..).ok()` is the
`decode` argument; it is the identity on percent-free strings.) -/
def pairAligned (decode : Str → Option Str) (pair : Str) : Bool :=
  match splitOnce '=' pair with
  | some (_, v) => !v.contains '=' && (decode v).isSome
  | none => true

/-- Concrete axum request carrying four distinct credentials: named header
`sa: Bearer H1`, header `Authorization: H2`, cookie `sa=C3`, query string
`sa=Q4`. -/
def fourSourceAxumRequest : Axum.Request :=
  ⟨fun n => if n = "sa".toList then some "Bearer H1".toList
    else if n = "Authorization".toList then some "H2".toList else none,
   fun n => if n = "sa".toList then some "C3".toList else none,
   some "sa=Q4".toList⟩

/-- Concrete actix-web request with the same four distinct credentials as
`fourSourceAxumRequest`. -/
def fourSourceActixRequest : Actix.Request :=
  ⟨fun n => if n = "sa".toList then some "Bearer H1".toList
    else if n = "Authorization".toList then some "H2".toList else none,
   fun n => if n = "sa".toList then some "C3".toList else none,
   "sa=Q4".toList⟩

/-- C1: the claimed single-segment values are `match_path("/api/user",
"/api/*") = true`, `match_path("/api/user/profile", "/api/*") = false`,
`match_path("/api/", "/api/*") = true`.  The code actually yields false on
the first input: the `/*` rule strips two characters, leaving the prefix
`"/api"`, so the remaining suffix of `"/api/user"` is `"/user"`, which
contains a `/`.  This contradicts the function's own doc example
`assert!(match_path("/api/user", "/api/*"))` (router.rs line 26) and its
doc line "`/api/*`: Match single-level paths under `/api/`" — a bug in
the code, witnessed here by evaluating the embedding on all three
inputs. -/
theorem C1_single_segment_code_behavior :
    match_path "/api/user".toList "/api/*".toList = false ∧
    match_path "/api/user/profile".toList "/api/*".toList = false ∧
    match_path "/api/".toList "/api/*".toList = true := by decide

/-- C2 counterexample: the claim says `match_path(p, "/api/**")` is true
iff `p` starts with `"/api/"`, but the code strips the three characters
`"/**"`, keeping the prefix `"/api"` without the trailing slash: the path
`"/api"` matches the pattern yet does not start with `"/api/"` (the path
`"/apix"` is another such input). -/
theorem C2_counterexample :
    match_path "/api".toList "/api/**".toList = true ∧
    "/api/".toList.isPrefixOf "/api".toList = false := by decide

/-- C2 amended: for every path `p`, `match_path(p, "/api/**")` is true iff
`p` starts with `"/api"` (no trailing slash — the pattern minus its `/**`
suffix). -/
theorem C2_prefix_of_api (p : Str) :
    match_path p "/api/**".toList = "/api".toList.isPrefixOf p := by
  unfold match_path
  rw [if_neg (by decide), if_pos (by decide)]
  have h : "/api/**".toList.take ("/api/**".toList.length - 3) = "/api".toList := by
    decide
  rw [h]

/-- C3: for every configuration and path, `check(path)` equals
`match_any(path, include) && !match_any(path, exclude)`; hence an empty
include list makes `check` false everywhere, and any matching exclude
pattern makes `check` false regardless of the include list. -/
theorem C3_check_decomposition (cfg : PathAuthConfig) (path : Str) :
    cfg.check path = (match_any path cfg.inc && !match_any path cfg.exc) ∧
    (cfg.inc = [] → cfg.check path = false) ∧
    (∀ pat ∈ cfg.exc, match_path path pat = true → cfg.check path = false) := by
  refine ⟨rfl, ?_, ?_⟩
  · intro h
    simp [PathAuthConfig.check, need_auth, match_any, h]
  · intro pat hmem hmatch
    have hexc : match_any path cfg.exc = true := by
      simp only [match_any, List.any_eq_true]
      exact ⟨pat, hmem, hmatch⟩
    simp [PathAuthConfig.check, need_auth, hexc]

/-- Witness for C3 at a concrete configuration: with include `["/**"]` and
exclude `["/x"]`, the path `"/x"` does not require auth. -/
theorem C3_check_decomposition_witness :
    PathAuthConfig.check ⟨["/**".toList], ["/x".toList], none⟩ "/x".toList = false :=
  (C3_check_decomposition ⟨["/**".toList], ["/x".toList], none⟩ "/x".toList).2.2
    "/x".toList (by decide) (by decide)

/-- C4: on a path requiring auth, a token the validator accepts whose
resolved login id the identity predicate rejects yields
`should_reject() = true`; and on a path not requiring auth,
`should_reject()` is false for every token input and the result does not
depend on the identity predicate at all (so the predicate is never
consulted). -/
theorem C4_identity_predicate_gate (cfg : PathAuthConfig) (mgr : SaTokenManager) :
    (∀ (path tok : Str) (info : TokenInfo),
      cfg.check path = true →
      mgr.is_valid (TokenValue.new tok) = true →
      mgr.get_token_info (TokenValue.new tok) = Except.ok info →
      cfg.validate_login_id info.login_id = false →
      (process_auth path (some tok) cfg mgr).should_reject = true) ∧
    (∀ (path : Str) (ts : Option Str),
      cfg.check path = false →
      (process_auth path ts cfg mgr).should_reject = false ∧
      ∀ v2 : Option (Str → Bool),
        process_auth path ts cfg mgr =
          process_auth path ts ⟨cfg.inc, cfg.exc, v2⟩ mgr) := by
  constructor
  · intro path tok info hna hv hres hrej
    simp [process_auth, AuthResult.should_reject, hna, hv, hres, Except.toOption, hrej]
  · intro path ts hna
    have hna' : need_auth path cfg.inc cfg.exc = false := hna
    constructor
    · simp [process_auth, AuthResult.should_reject, PathAuthConfig.check, hna']
    · intro v2
      simp [process_auth, PathAuthConfig.check, hna']

/-- Witness for C4: a concrete always-valid, always-resolving manager with
an always-rejecting identity predicate on an authenticated path forces
rejection. -/
theorem C4_identity_predicate_gate_witness :
    (process_auth "/api/x".toList (some "t".toList)
        ⟨["/api/**".toList], [], some (fun _ => false)⟩
        ⟨fun _ => true, fun _ => Except.ok ⟨"u1".toList, []⟩⟩).should_reject = true :=
  (C4_identity_predicate_gate ⟨["/api/**".toList], [], some (fun _ => false)⟩
      ⟨fun _ => true, fun _ => Except.ok ⟨"u1".toList, []⟩⟩).1
    "/api/x".toList "t".toList ⟨"u1".toList, []⟩ (by decide) rfl rfl rfl

/-- C6: with no token, `process_auth` yields `is_valid = false`,
`token_info = None`, `token = None`; `should_reject()` then equals
`need_auth`, and is true whenever the path requires auth. -/
theorem C6_missing_token (path : Str) (cfg : PathAuthConfig) (mgr : SaTokenManager) :
    (process_auth path none cfg mgr).is_valid = false ∧
    (process_auth path none cfg mgr).token_info = none ∧
    (process_auth path none cfg mgr).token = none ∧
    (process_auth path none cfg mgr).should_reject
      = (process_auth path none cfg mgr).need_auth ∧
    (cfg.check path = true → (process_auth path none cfg mgr).should_reject = true) := by
  refine ⟨by simp [process_auth], by simp [process_auth], by simp [process_auth],
    by simp [process_auth, AuthResult.should_reject], ?_⟩
  intro h
  simp [process_auth, AuthResult.should_reject, h]

/-- Witness for C6 at a concrete configuration whose include list covers
every path. -/
theorem C6_missing_token_witness :
    (process_auth "/a".toList none ⟨["/**".toList], [], none⟩
        ⟨fun _ => true, fun _ => Except.error ⟨[]⟩⟩).should_reject = true :=
  (C6_missing_token "/a".toList ⟨["/**".toList], [], none⟩
      ⟨fun _ => true, fun _ => Except.error ⟨[]⟩⟩).2.2.2.2 (by decide)

/-- C7: when the validator accepts a token but identity resolution fails,
`process_auth` still returns a result (it is a total function of the
embedded code): the error is swallowed into `token_info = None`, the token
is kept, and the final validity is recomputed — on a path requiring auth
the result is a rejection, on other paths the raw validity `true`
stands. -/
theorem C7_resolution_failure_degrades (path : Str) (cfg : PathAuthConfig)
    (mgr : SaTokenManager) (tok : Str) (e : SaTokenError)
    (hv : mgr.is_valid (TokenValue.new tok) = true)
    (herr : mgr.get_token_info (TokenValue.new tok) = Except.error e) :
    (process_auth path (some tok) cfg mgr).token_info = none ∧
    (process_auth path (some tok) cfg mgr).token = some (TokenValue.new tok) ∧
    (cfg.check path = true →
      (process_auth path (some tok) cfg mgr).is_valid = false ∧
      (process_auth path (some tok) cfg mgr).should_reject = true) ∧
    (cfg.check path = false →
      (process_auth path (some tok) cfg mgr).is_valid = true ∧
      (process_auth path (some tok) cfg mgr).should_reject = false) := by
  refine ⟨?_, ?_, ?_, ?_⟩
  · simp [process_auth, hv, herr, Except.toOption]
  · simp [process_auth]
  · intro h
    constructor <;>
      simp [process_auth, AuthResult.should_reject, hv, herr, Except.toOption, h]
  · intro h
    constructor <;>
      simp [process_auth, AuthResult.should_reject, hv, herr, Except.toOption, h]

/-- Witness for C7: a backend whose resolution always fails, on a path
requiring auth, rejects rather than crashes. -/
theorem C7_resolution_failure_degrades_witness :
    (process_auth "/a".toList (some "t".toList) ⟨["/**".toList], [], none⟩
        ⟨fun _ => true, fun _ => Except.error ⟨"db down".toList⟩⟩).should_reject
      = true :=
  ((C7_resolution_failure_degrades "/a".toList ⟨["/**".toList], [], none⟩
      ⟨fun _ => true, fun _ => Except.error ⟨"db down".toList⟩⟩ "t".toList
      ⟨"db down".toList⟩ rfl rfl).2.2.1 (by decide)).2

/-- C8: both adapters' credential extraction is the first hit of the
four-tier search — named header (Bearer-stripped), then the
`Authorization` header (Bearer-stripped) when the named header is not
`Authorization` itself, then the cookie unstripped, then the decoded query
parameter.  Each conjunct fixes the earlier tiers absent and concludes the
next tier's value is returned. -/
theorem C8_extraction_priority (token_name : Str) (decode : Str → Option Str)
    (areq : Axum.Request) (breq : Actix.Request) :
    ((∀ h, areq.get_header token_name = some h →
      Axum.extract_token_from_request areq token_name decode =
        some (Axum.extract_bearer_token h)) ∧
    (areq.get_header token_name = none → token_name ≠ "Authorization".toList →
      ∀ a, areq.get_header "Authorization".toList = some a →
      Axum.extract_token_from_request areq token_name decode =
        some (Axum.extract_bearer_token a)) ∧
    (areq.get_header token_name = none →
      (token_name = "Authorization".toList ∨
        areq.get_header "Authorization".toList = none) →
      ∀ c, areq.get_cookie token_name = some c →
      Axum.extract_token_from_request areq token_name decode = some c) ∧
    (areq.get_header token_name = none →
      (token_name = "Authorization".toList ∨
        areq.get_header "Authorization".toList = none) →
      areq.get_cookie token_name = none →
      ∀ q, areq.query = some q →
      Axum.extract_token_from_request areq token_name decode =
        Axum.parse_query_param q token_name decode)) ∧
    ((∀ h, breq.get_header token_name = some h →
      Actix.extract_token_from_request breq token_name decode =
        some (Actix.extract_bearer_token h)) ∧
    (breq.get_header token_name = none → token_name ≠ "Authorization".toList →
      ∀ a, breq.get_header "Authorization".toList = some a →
      Actix.extract_token_from_request breq token_name decode =
        some (Actix.extract_bearer_token a)) ∧
    (breq.get_header token_name = none →
      (token_name = "Authorization".toList ∨
        breq.get_header "Authorization".toList = none) →
      ∀ c, breq.get_cookie token_name = some c →
      Actix.extract_token_from_request breq token_name decode = some c) ∧
    (breq.get_header token_name = none →
      (token_name = "Authorization".toList ∨
        breq.get_header "Authorization".toList = none) →
      breq.get_cookie token_name = none →
      Actix.extract_token_from_request breq token_name decode =
        Actix.find_query_param token_name decode (breq.query_string.splitOn '&'))) := by
  refine ⟨⟨?_, ?_, ?_, ?_⟩, ⟨?_, ?_, ?_, ?_⟩⟩
  · intro h hh
    simp only [Axum.extract_token_from_request, hh]
  · intro h0 hne a ha
    simp only [Axum.extract_token_from_request, h0, if_neg hne, ha]
  · intro h0 hd c hc
    rcases hd with he | hn
    · subst he
      simp only [Axum.extract_token_from_request, h0, ite_self, hc]
    · simp only [Axum.extract_token_from_request, h0, hn, ite_self, hc]
  · intro h0 hd hc q hq
    rcases hd with he | hn
    · subst he
      simp only [Axum.extract_token_from_request, h0, ite_self, hc, hq]
    · simp only [Axum.extract_token_from_request, h0, hn, ite_self, hc, hq]
  · intro h hh
    simp only [Actix.extract_token_from_request, hh]
  · intro h0 hne a ha
    simp only [Actix.extract_token_from_request, h0, if_neg hne, ha]
  · intro h0 hd c hc
    rcases hd with he | hn
    · subst he
      simp only [Actix.extract_token_from_request, h0, ite_self, hc]
    · simp only [Actix.extract_token_from_request, h0, hn, ite_self, hc]
  · intro h0 hd hc
    rcases hd with he | hn
    · subst he
      simp only [Actix.extract_token_from_request, h0, ite_self, hc]
    · simp only [Actix.extract_token_from_request, h0, hn, ite_self, hc]

/-- Witness for C8: both adapters, facing all four distinct credentials of
the concrete requests, return the named header's value with its `Bearer `
prefix stripped. -/
theorem C8_extraction_priority_witness :
    Axum.extract_token_from_request fourSourceAxumRequest "sa".toList some =
      some "H1".toList ∧
    Actix.extract_token_from_request fourSourceActixRequest "sa".toList some =
      some "H1".toList := by
  have ha := (C8_extraction_priority "sa".toList some fourSourceAxumRequest
      fourSourceActixRequest).1.1 "Bearer H1".toList (by decide)
  have hb := (C8_extraction_priority "sa".toList some fourSourceAxumRequest
      fourSourceActixRequest).2.1 "Bearer H1".toList (by decide)
  rw [ha, hb]
  constructor <;> decide

/-- Helper for C9: the two adapters' query-parameter loops coincide on any
list of pairs in which every pair's value is free of `=` and decodes
successfully. -/
theorem query_loops_agree (token_name : Str) (decode : Str → Option Str)
    (pairs : List Str) (h : pairs.all (pairAligned decode) = true) :
    Axum.parse_query_loop token_name decode pairs =
      Actix.find_query_param token_name decode pairs := by
  induction pairs with
  | nil => rfl
  | cons pair rest ih =>
    rw [List.all_cons, Bool.and_eq_true] at h
    obtain ⟨hp, hrest⟩ := h
    unfold Axum.parse_query_loop Actix.find_query_param
    cases hs : splitOnce '=' pair with
    | none => exact ih hrest
    | some kv =>
      obtain ⟨k, v⟩ := kv
      unfold pairAligned at hp
      rw [hs, Bool.and_eq_true] at hp
      obtain ⟨hnoeq, hdec⟩ := hp
      have hv : v.takeWhile (· != '=') = v := by
        rw [List.takeWhile_eq_self_iff]
        intro x hx
        simp only [bne_iff_ne, ne_eq]
        intro hxe
        subst hxe
        rw [Bool.not_eq_true'] at hnoeq
        have hcon : v.contains '=' = true :=
          List.contains_iff_exists_mem_beq.mpr ⟨'=', hx, by simp⟩
        rw [hcon] at hnoeq
        cases hnoeq
      simp only [hv]
      by_cases hk : k = token_name
      · rw [if_pos hk, if_pos hk]
        obtain ⟨s, hse⟩ := Option.isSome_iff_exists.mp hdec
        rw [hse]
      · rw [if_neg hk, if_neg hk]
        exact ih hrest

/-- C9 counterexample: the adapters' bearer extractors are not
extensionally equal — on the header value `"Bearer x "` the axum version
trims the stripped remainder to `"x"` while the actix-web version keeps
the trailing space; and with the identity decode (what
`urlencoding::decode` does on percent-free input) the query parsers differ
on `"sa=a=b"`, where axum's `splitn(2, '=')` keeps `"a=b"` but actix-web's
`split('=')` keeps only `"a"`. -/
theorem C9_counterexample :
    Axum.extract_bearer_token "Bearer x ".toList ≠
      Actix.extract_bearer_token "Bearer x ".toList ∧
    Axum.parse_query_param "sa=a=b".toList "sa".toList some ≠
      Actix.find_query_param "sa".toList some ("sa=a=b".toList.splitOn '&') := by
  constructor <;> decide

/-- C9 amended: the axum bearer extractor equals the actix-web one
followed by Rust's `trim` — so the two agree exactly on the values whose
actix-web result carries no surrounding whitespace — and the two query
parsers agree on every query string in which each pair's value is free of
`=` and decodes successfully. -/
theorem C9_adapters_agree_modulo_trim (v token_name q : Str)
    (decode : Str → Option Str)
    (hq : (q.splitOn '&').all (pairAligned decode) = true) :
    Axum.extract_bearer_token v = rustTrim (Actix.extract_bearer_token v) ∧
    (rustTrim (Actix.extract_bearer_token v) = Actix.extract_bearer_token v →
      Axum.extract_bearer_token v = Actix.extract_bearer_token v) ∧
    Axum.parse_query_param q token_name decode =
      Actix.find_query_param token_name decode (q.splitOn '&') := by
  have hb : Axum.extract_bearer_token v = rustTrim (Actix.extract_bearer_token v) := by
    unfold Axum.extract_bearer_token Actix.extract_bearer_token
    by_cases hp : "Bearer ".toList.isPrefixOf v = true
    · rw [if_pos hp, if_pos hp]
    · rw [if_neg hp, if_neg hp]
  refine ⟨hb, ?_, ?_⟩
  · intro ht
    rw [hb, ht]
  · exact query_loops_agree token_name decode (q.splitOn '&') hq

/-- Witness for C9 amended, at the query string `"sa=abc"` with the
identity decode. -/
theorem C9_adapters_agree_modulo_trim_witness :
    Axum.parse_query_param "sa=abc".toList "sa".toList some =
      Actix.find_query_param "sa".toList some ("sa=abc".toList.splitOn '&') :=
  (C9_adapters_agree_modulo_trim "x".toList "sa".toList "sa=abc".toList some
    (by decide)).2.2

/-- C10: the context built by `create_context` has its three fields all
populated exactly when both the result's token and token info are present
(the login id then being the resolved identity's login id), is the empty
context otherwise, and never depends on `is_valid` or `need_auth`. -/
theorem C10_context_population (r : AuthResult) :
    (∀ (t : TokenValue) (i : TokenInfo), r.token = some t → r.token_info = some i →
      create_context r = ⟨some t, some i, some i.login_id⟩) ∧
    ((r.token = none ∨ r.token_info = none) → create_context r = SaTokenContext.new) ∧
    (∀ b1 b2 : Bool,
      create_context { r with is_valid := b1, need_auth := b2 } = create_context r) ∧
    (((create_context r).token.isSome ∧ (create_context r).token_info.isSome ∧
        (create_context r).login_id.isSome) ↔
      (r.token.isSome ∧ r.token_info.isSome)) := by
  obtain ⟨na, tk, ti, iv⟩ := r
  cases tk <;> cases ti <;>
    refine ⟨?_, ?_, ?_, ?_⟩ <;>
      simp [create_context, SaTokenContext.new]

/-- Witness for C10: a resolvable token on a path not requiring auth
(`need_auth = false`) still yields a fully populated context. -/
theorem C10_context_population_witness :
    create_context ⟨false, some (TokenValue.new "t".toList),
        some ⟨"u".toList, []⟩, true⟩ =
      ⟨some (TokenValue.new "t".toList), some ⟨"u".toList, []⟩, some "u".toList⟩ :=
  (C10_context_population ⟨false, some (TokenValue.new "t".toList),
      some ⟨"u".toList, []⟩, true⟩).1
    (TokenValue.new "t".toList) ⟨"u".toList, []⟩ rfl rfl

end SaToken
